import Mathlib

/-!
Verification of the Veo MCP server's operation-polling slice
(translated from src/index.ts).

The embedding models, faithfully to the TypeScript source:
  - the remote `OperationResponse` snapshot shape (lines 143-162);
  - `handleApiError` (lines 190-221);
  - the snapshot classification used by `formatOperationStatus` (lines
    223-237) and the `veo_get_operation_status` handler (lines 653-659);
  - operation-name normalization in both handlers (lines 645-647 and
    705-707);
  - the `WaitForVideoInputSchema` zod bounds (lines 347-366);
  - the polling loop of the `veo_wait_for_video` handler (lines 702-786),
    under an idealized clock in which a status fetch is instantaneous and
    each sleep advances time by exactly the poll interval.
-/

/-- The `error` field of an operation snapshot (code + message). -/
structure OpError where
  code : Int
  message : String
deriving DecidableEq

/-- The `video` object inside a generated sample. -/
structure VideoRef where
  uri : String
deriving DecidableEq

/-- One element of `generatedSamples`. -/
structure GeneratedSample where
  video : VideoRef
deriving DecidableEq

/-- The `generateVideoResponse` object.  The TypeScript interface declares
`generatedSamples` as required, but both handlers access it with the
optional-chaining operator, so at runtime it may be absent; we model it as
an `Option` to cover that case. -/
structure GenerateVideoResponseBody where
  generatedSamples : Option (List GeneratedSample)
deriving DecidableEq

/-- The `response` object of an operation snapshot. -/
structure OperationResponseBody where
  generateVideoResponse : Option GenerateVideoResponseBody
deriving DecidableEq

/-- An `OperationResponse` snapshot as returned by the remote service
(`name`, optional `done`, optional `error`, optional `response`). -/
structure OperationResponse where
  name : String
  done : Option Bool := none
  error : Option OpError := none
  response : Option OperationResponseBody := none
deriving DecidableEq

/-- `operation.response?.generateVideoResponse?.generatedSamples?.map(s =>
s.video.uri) ?? []` — the artifact-URL extraction used verbatim at lines
658 and 773: any absent link in the optional chain yields the empty
list. -/
def videoUrls (op : OperationResponse) : List String :=
  match op.response with
  | none => []
  | some body =>
    match body.generateVideoResponse with
    | none => []
    | some gvr =>
      match gvr.generatedSamples with
      | none => []
      | some samples => samples.map (fun s => s.video.uri)

/-- `operation.error ? "failed" : operation.done ? "completed" :
"in_progress"` — the status classification computed identically at line
655 and inside `formatOperationStatus` (lines 224-231).  JavaScript
truthiness: `done` (boolean or undefined) is truthy exactly when it is
`true`; an `error` object is truthy exactly when present. -/
def classifyStatus (op : OperationResponse) : String :=
  if op.error.isSome then "failed"
  else if op.done.getD false then "completed"
  else "in_progress"

/-- The structured output of the `veo_get_operation_status` handler
(lines 653-659). -/
structure GetStatusOutput where
  operation_name : String
  status : String
  done : Bool
  error : Option OpError
  video_urls : List String
deriving DecidableEq

/-- Lines 653-659 of the `veo_get_operation_status` handler. -/
def getOperationStatusOutput (op : OperationResponse) : GetStatusOutput :=
  { operation_name := op.name
    status := classifyStatus op
    done := op.done.getD false
    error := op.error
    video_urls := videoUrls op }

/-- Lines 645-647: the `veo_get_operation_status` handler's normalization
of the supplied operation name.  `includes("/")` is modelled as membership
of the separator character in the string's character list. -/
def statusOperationPath (name : String) : String :=
  if name.data.contains '/' then name else "operations/" ++ name

/-- Lines 705-707: the `veo_wait_for_video` handler's normalization of the
supplied operation name (textually identical to lines 645-647). -/
def waitOperationPath (name : String) : String :=
  if name.data.contains '/' then name else "operations/" ++ name

/-- A transport-level failure of a status fetch, as discriminated by
`handleApiError`: an HTTP error response, a client-side timeout
(ECONNABORTED), a DNS failure (ENOTFOUND), or anything else. -/
inductive ApiError where
  | http (status : Nat) (message : String)
  | connAborted
  | connNotFound
  | other (message : String)
deriving DecidableEq

/-- `handleApiError` (lines 190-221): maps a transport failure to a
human-readable error string; it always returns a string, never rethrows. -/
def handleApiError : ApiError → String
  | .http 400 m => "Error: Invalid request. " ++ m ++ ". Check your parameters and try again."
  | .http 401 _ => "Error: Invalid API key. Please check your GEMINI_API_KEY environment variable."
  | .http 403 m => "Error: Access denied. " ++ m ++ ". Ensure your API key has Veo access enabled."
  | .http 404 m => "Error: Resource not found. " ++ m ++ ". Check the operation name or model ID."
  | .http 429 _ => "Error: Rate limit exceeded. Please wait before making more requests."
  | .http 500 m => "Error: Server error. " ++ m ++ ". Please try again later."
  | .http s m => "Error: API request failed with status " ++ toString s ++ ". " ++ m
  | .connAborted => "Error: Request timed out. Video generation can take several minutes. Use veo_get_operation_status to check progress."
  | .connNotFound => "Error: Network error. Please check your internet connection."
  | .other m => "Error: Unexpected error occurred: " ++ m

-- Helper: a qualified name produced by the normalization always contains
-- the path separator, so normalizing is idempotent.
theorem qualified_contains_slash (s : String) :
    ("operations/" ++ s).data.contains '/' = true := by
  have h : ("operations/" ++ s).data = "operations/".data ++ s.data := rfl
  rw [h]
  simp

/-- The timeout message built at line 732 of the handler. -/
def timeoutMessage (tSec : Nat) : String :=
  "Timed out after " ++ toString tSec ++
  " seconds. The video may still be generating. Use veo_get_operation_status to check later."

/-- `Math.round(elapsed / 1000)` for a non-negative integer millisecond
count: floor of the value plus one half. -/
def msToRoundedSeconds (ms : Nat) : Nat := (ms + 500) / 1000

/-- The structured output built at lines 766-774 after the polling loop
exits through its terminal `break` (snapshot done or carrying an error). -/
structure WaitFinishedOutput where
  operation_name : String
  status : String
  done : Bool
  elapsed_seconds : Nat
  poll_count : Nat
  error : Option OpError
  video_urls : List String
deriving DecidableEq

/-- The structured output built at lines 726-733 when the deadline check
fires (the timeout outcome). -/
structure WaitTimeoutOutput where
  operation_name : String
  status : String
  done : Bool
  elapsed_seconds : Nat
  poll_count : Nat
  message : String
deriving DecidableEq

/-- Lines 766-774: the terminal-branch output.  Note `done := true`
unconditionally and `status` recomputed from the error field alone. -/
def waitFinishedOutput (op : OperationResponse) (elapsedMs pollCount : Nat) :
    WaitFinishedOutput :=
  { operation_name := op.name
    status := if op.error.isSome then "failed" else "completed"
    done := true
    elapsed_seconds := msToRoundedSeconds elapsedMs
    poll_count := pollCount
    error := op.error
    video_urls := videoUrls op }

/-- Lines 726-733: the timeout-branch output. -/
def waitTimeoutOutput (op : OperationResponse) (elapsedMs pollCount tSec : Nat) :
    WaitTimeoutOutput :=
  { operation_name := op.name
    status := "timeout"
    done := false
    elapsed_seconds := msToRoundedSeconds elapsedMs
    poll_count := pollCount
    message := timeoutMessage tSec }

/-- One of the three ways a `veo_wait_for_video` call can come back to the
caller: through the terminal branch, through the timeout branch, or
through the surrounding `catch` when a status fetch throws (an
`isError` content block, still a returned value, not a process abort). -/
inductive WaitResult where
  | finished (out : WaitFinishedOutput)
  | timedOut (out : WaitTimeoutOutput)
  | fetchFailed (text : String)
deriving DecidableEq

/-- The `while (true)` polling loop of the `veo_wait_for_video` handler
(lines 716-761) plus the code after it (lines 763-779), under the
idealized clock: a fetch is instantaneous and each
`setTimeout(pollIntervalMs)` sleep advances elapsed time by exactly
`pSec * 1000` milliseconds.  `fetch k` is the result of the k-th status
fetch of this call (a thrown transport error is `Except.error`);
`pollCount` and `elapsedMs` are the loop state entering an iteration
(initially both 0).  The loop: increment the poll counter, fetch; on a
snapshot with truthy `done` or an `error`, break to the terminal output;
otherwise, if elapsed time has reached the timeout, return the timeout
output; otherwise sleep one poll interval and repeat. -/
def waitLoop (fetch : Nat → Except ApiError OperationResponse)
    (pSec tSec : Nat) (hp : 0 < pSec) (pollCount elapsedMs : Nat) : WaitResult :=
  match fetch (pollCount + 1) with
  | .error err => .fetchFailed (handleApiError err)
  | .ok op =>
    if op.done.getD false || op.error.isSome then
      .finished (waitFinishedOutput op elapsedMs (pollCount + 1))
    else if tSec * 1000 ≤ elapsedMs then
      .timedOut (waitTimeoutOutput op elapsedMs (pollCount + 1) tSec)
    else
      waitLoop fetch pSec tSec hp (pollCount + 1) (elapsedMs + pSec * 1000)
termination_by tSec * 1000 - elapsedMs
decreasing_by omega

-- Ceiling division on naturals: the least k with a ≤ k * b (for b > 0).
-- Used to state the poll-count bounds of the timeout outcome.
def ceilDiv (a b : Nat) : Nat := (a + b - 1) / b

theorem ceilDiv_le_iff (a b k : Nat) (hb : 0 < b) : ceilDiv a b ≤ k ↔ a ≤ b * k := by
  unfold ceilDiv
  rw [Nat.div_le_iff_le_mul_add_pred hb]
  generalize b * k = m
  omega

theorem le_mul_ceilDiv (a b : Nat) (hb : 0 < b) : a ≤ b * ceilDiv a b :=
  (ceilDiv_le_iff a b (ceilDiv a b) hb).mp le_rfl

theorem ceilDiv_mul_mul (a b c : Nat) (hb : 0 < b) (hc : 0 < c) :
    ceilDiv (c * a) (c * b) = ceilDiv a b := by
  apply le_antisymm
  · rw [ceilDiv_le_iff _ _ _ (Nat.mul_pos hc hb)]
    calc c * a ≤ c * (b * ceilDiv a b) := Nat.mul_le_mul_left c (le_mul_ceilDiv a b hb)
    _ = c * b * ceilDiv a b := by ring
  · rw [ceilDiv_le_iff _ _ _ hb]
    have h := le_mul_ceilDiv (c * a) (c * b) (Nat.mul_pos hc hb)
    have h2 : c * a ≤ c * (b * ceilDiv (c * a) (c * b)) := by
      calc c * a ≤ c * b * ceilDiv (c * a) (c * b) := h
      _ = c * (b * ceilDiv (c * a) (c * b)) := by ring
    exact Nat.le_of_mul_le_mul_left h2 hc

theorem ceilDiv_pos (d p : Nat) (hd : 0 < d) (hp : 0 < p) : 0 < ceilDiv d p := by
  by_contra h4
  push_neg at h4
  have := (ceilDiv_le_iff d p 0 hp).mp (by omega)
  omega

theorem ceilDiv_lt_self_mul (d p : Nat) (hd : 0 < d) (hp : 0 < p) :
    (ceilDiv d p - 1) * p < d := by
  by_contra h
  push_neg at h
  have h2 : ceilDiv d p ≤ ceilDiv d p - 1 := by
    rw [ceilDiv_le_iff d p _ hp]
    calc d ≤ (ceilDiv d p - 1) * p := h
    _ = p * (ceilDiv d p - 1) := by ring
  have h3 := ceilDiv_pos d p hd hp
  omega

-- A snapshot the polling loop does not stop on: no done flag, no error.
def nonTerminalSnap (op : OperationResponse) : Prop :=
  op.done = none ∧ op.error = none

-- Reach lemma: as long as every fetch up to the n-th from now is
-- non-terminal and the deadline check does not fire, the loop simply
-- advances its state by n iterations.
theorem waitLoop_reach (fetch : Nat → Except ApiError OperationResponse)
    (pSec tSec : Nat) (hp : 0 < pSec) :
    ∀ (n pollCount elapsedMs : Nat),
    (∀ i, pollCount < i → i ≤ pollCount + n →
      ∃ op, fetch i = Except.ok op ∧ nonTerminalSnap op) →
    (∀ j, j < n → elapsedMs + j * (pSec * 1000) < tSec * 1000) →
    waitLoop fetch pSec tSec hp pollCount elapsedMs =
      waitLoop fetch pSec tSec hp (pollCount + n) (elapsedMs + n * (pSec * 1000)) := by
  intro n
  induction n with
  | zero => intro pc e _ _; simp
  | succ n ih =>
    intro pc e hf he
    obtain ⟨op, hop, hdone, herr⟩ := hf (pc + 1) (by omega) (by omega)
    have hstep : waitLoop fetch pSec tSec hp pc e =
        waitLoop fetch pSec tSec hp (pc + 1) (e + pSec * 1000) := by
      rw [waitLoop, hop]
      have h0 : e + 0 * (pSec * 1000) < tSec * 1000 := he 0 (by omega)
      simp [hdone, herr]
      omega
    rw [hstep]
    have hshift := ih (pc + 1) (e + pSec * 1000)
      (by intro i hi1 hi2; exact hf i (by omega) (by omega))
      (by intro j hj
          have := he (j + 1) (by omega)
          have harith : e + pSec * 1000 + j * (pSec * 1000) =
              e + (j + 1) * (pSec * 1000) := by ring
          omega)
    rw [hshift]
    have h1 : pc + 1 + n = pc + (n + 1) := by omega
    have h2 : e + pSec * 1000 + n * (pSec * 1000) = e + (n + 1) * (pSec * 1000) := by ring
    rw [h1, h2]

/-- Claim C3: the operation-identifier normalization is idempotent: a
string containing the path separator is returned unchanged; a bare token
is returned in a single qualified form, and normalizing again is the
identity on the result. -/
theorem operationPath_normalization_idempotent (s : String) :
    (s.data.contains '/' = true → statusOperationPath s = s) ∧
    (s.data.contains '/' = false → statusOperationPath s = "operations/" ++ s) ∧
    statusOperationPath (statusOperationPath s) = statusOperationPath s := by
  refine ⟨?_, ?_, ?_⟩
  · intro h
    have h' : '/' ∈ s.data := by simp at h; exact h
    simp [statusOperationPath, h']
  · intro h
    have h' : '/' ∉ s.data := by simpa using h
    simp [statusOperationPath, h']
  · by_cases h : '/' ∈ s.data
    · simp [statusOperationPath, h]
    · have hq : '/' ∈ ("operations/" ++ s).data := by
        simp
      simp [statusOperationPath, h, hq]

/-- Witness for C3: normalization evaluated on the bare token "abc123" and
on the qualified name "operations/abc123". -/
theorem operationPath_normalization_idempotent_witness :
    statusOperationPath "abc123" = "operations/" ++ "abc123" ∧
    statusOperationPath (statusOperationPath "abc123") = statusOperationPath "abc123" ∧
    statusOperationPath "operations/abc123" = "operations/abc123" :=
  ⟨(operationPath_normalization_idempotent "abc123").2.1 (by decide),
   (operationPath_normalization_idempotent "abc123").2.2,
   (operationPath_normalization_idempotent "operations/abc123").1 (by decide)⟩

/-- Claim C4: the status-fetch handler and the wait handler compute the
same normalized remote lookup key for every input operation name. -/
theorem status_and_wait_normalization_agree (s : String) :
    statusOperationPath s = waitOperationPath s := rfl

-- Concrete snapshots used by witnesses and counterexamples.
def doneNoArtifactsSnap : OperationResponse :=
  { name := "operations/abc123"
    done := some true
    error := none
    response := none }

def deniedErrorSnap : OperationResponse :=
  { name := "operations/abc123"
    done := some true
    error := some { code := 7, message := "denied" }
    response := none }

def oneSampleSnap : OperationResponse :=
  { name := "operations/abc123"
    done := some true
    error := none
    response := some
      { generateVideoResponse := some
          { generatedSamples := some [{ video := { uri := "https://example.com/v1.mp4" } }] } } }

/-- Counterexample for C5 as stated: the snapshot with done = true, no
error and no response object (hence no artifact list present) is
classified "completed", refuting the conjunct "completed iff done = true
with no error and the artifact list present". -/
theorem classifyStatus_completed_without_artifacts :
    classifyStatus doneNoArtifactsSnap = "completed" ∧
    doneNoArtifactsSnap.response = none :=
  ⟨rfl, rfl⟩

/-- Claim C5 (amended): the classification assigns every snapshot exactly
one of the three statuses: failed iff an error is present (regardless of
done); completed iff no error and done = true; in_progress iff no error
and done is not true (the artifact list plays no role); in particular a
snapshot with done = true and an error is failed, never completed. -/
theorem classifyStatus_partition (op : OperationResponse) :
    (classifyStatus op = "in_progress" ∨ classifyStatus op = "completed" ∨
      classifyStatus op = "failed") ∧
    (classifyStatus op = "failed" ↔ op.error.isSome = true) ∧
    (classifyStatus op = "completed" ↔ op.error = none ∧ op.done = some true) ∧
    (classifyStatus op = "in_progress" ↔ op.error = none ∧ op.done ≠ some true) ∧
    (op.done = some true → op.error.isSome = true → classifyStatus op = "failed") := by
  obtain ⟨n, d, e, r⟩ := op
  cases e <;> rcases d with _ | b
  · simp [classifyStatus]
  · cases b <;> simp [classifyStatus]
  · simp [classifyStatus]
  · cases b <;> simp [classifyStatus]

/-- Witness for C5: the scenario snapshot carrying error code 7 "denied"
together with done = true is classified "failed". -/
theorem classifyStatus_partition_witness :
    classifyStatus deniedErrorSnap = "failed" :=
  (classifyStatus_partition deniedErrorSnap).2.2.2.2 rfl rfl

/-- Claim C6: the artifact-URL list in the structured output of both the
status handler and the wait handler is the total function videoUrls, which
returns the sample URIs when the chain is present and the empty list when
the response, the generateVideoResponse or the sample list is absent —
always a list, never an absent value. -/
theorem video_urls_always_list (op : OperationResponse) :
    ((getOperationStatusOutput op).video_urls = videoUrls op) ∧
    (∀ eMs pc, (waitFinishedOutput op eMs pc).video_urls = videoUrls op) ∧
    (op.response = none → videoUrls op = []) ∧
    (∀ b, op.response = some b → b.generateVideoResponse = none → videoUrls op = []) ∧
    (∀ b g, op.response = some b → b.generateVideoResponse = some g →
      g.generatedSamples = none → videoUrls op = []) ∧
    (∀ b g l, op.response = some b → b.generateVideoResponse = some g →
      g.generatedSamples = some l → videoUrls op = l.map (fun s => s.video.uri)) := by
  refine ⟨rfl, fun _ _ => rfl, ?_, ?_, ?_, ?_⟩
  · intro h; simp [videoUrls, h]
  · intro b hb hg; simp [videoUrls, hb, hg]
  · intro b g hb hg hs; simp [videoUrls, hb, hg, hs]
  · intro b g l hb hg hs; simp [videoUrls, hb, hg, hs]

/-- Witness for C6: a snapshot containing one generated sample yields its
URI list; a bare snapshot yields the empty list. -/
theorem video_urls_always_list_witness :
    videoUrls oneSampleSnap = ["https://example.com/v1.mp4"] ∧
    videoUrls { name := "operations/abc123" } = [] :=
  ⟨(video_urls_always_list oneSampleSnap).2.2.2.2.2 _ _ _ rfl rfl rfl,
   (video_urls_always_list { name := "operations/abc123" }).2.2.1 rfl⟩

theorem msToRoundedSeconds_mul (x : Nat) : msToRoundedSeconds (x * 1000) = x := by
  unfold msToRoundedSeconds
  omega

-- Concrete fetch stubs used by witnesses.
def neverDoneSnap : OperationResponse := { name := "operations/abc123" }

def neverDoneFetch : Nat → Except ApiError OperationResponse :=
  fun _ => Except.ok neverDoneSnap

/-- Claim C1: against an operation whose every fetch is non-terminal, a
wait call with valid parameters returns the timeout outcome (not an error
result), with elapsed time at least the timeout and poll count within one
of the ceiling of t over p. -/
theorem wait_never_completes_times_out
    (p t : Nat) (hp5 : 5 ≤ p) (hp60 : p ≤ 60) (ht30 : 30 ≤ t) (ht600 : t ≤ 600)
    (hpt : p ≤ t) (fetch : Nat → Except ApiError OperationResponse)
    (hf : ∀ k, ∃ op, fetch k = Except.ok op ∧ nonTerminalSnap op) :
    ∃ out, waitLoop fetch p t (by omega) 0 0 = WaitResult.timedOut out ∧
      out.status = "timeout" ∧ out.done = false ∧
      t ≤ out.elapsed_seconds ∧
      ceilDiv t p - 1 ≤ out.poll_count ∧ out.poll_count ≤ ceilDiv t p + 1 := by
  have hp : 0 < p := by omega
  have hpMs : 0 < p * 1000 := by omega
  have htMs : 0 < t * 1000 := by omega
  set n := ceilDiv (t * 1000) (p * 1000) with hn
  have hnc : n = ceilDiv t p := by
    rw [hn]
    have h1 : t * 1000 = 1000 * t := by ring
    have h2 : p * 1000 = 1000 * p := by ring
    rw [h1, h2]
    exact ceilDiv_mul_mul t p 1000 hp (by omega)
  have hreach := waitLoop_reach fetch p t (by omega) n 0 0
    (fun i _ _ => hf i)
    (by intro j hj
        have hlt := ceilDiv_lt_self_mul (t * 1000) (p * 1000) htMs hpMs
        rw [← hn] at hlt
        have hmono : j * (p * 1000) ≤ (n - 1) * (p * 1000) :=
          Nat.mul_le_mul_right _ (by omega)
        omega)
  simp only [Nat.zero_add] at hreach
  obtain ⟨op, hop, hd, he⟩ := hf (n + 1)
  have hstop : t * 1000 ≤ n * (p * 1000) := by
    have h3 := le_mul_ceilDiv (t * 1000) (p * 1000) hpMs
    rw [← hn] at h3
    calc t * 1000 ≤ (p * 1000) * n := h3
    _ = n * (p * 1000) := by ring
  have heq : waitLoop fetch p t (by omega) 0 0 =
      WaitResult.timedOut (waitTimeoutOutput op (n * (p * 1000)) (n + 1) t) := by
    rw [hreach, waitLoop, hop]
    simp [hd, he, hstop]
  refine ⟨_, heq, rfl, rfl, ?_, ?_, ?_⟩
  · show t ≤ msToRoundedSeconds (n * (p * 1000))
    have h1 : n * (p * 1000) = (n * p) * 1000 := by ring
    rw [h1, msToRoundedSeconds_mul]
    have h2 : t * 1000 ≤ (n * p) * 1000 := by
      calc t * 1000 ≤ n * (p * 1000) := hstop
      _ = (n * p) * 1000 := by ring
    exact Nat.le_of_mul_le_mul_right h2 (by omega)
  · show ceilDiv t p - 1 ≤ n + 1
    omega
  · show n + 1 ≤ ceilDiv t p + 1
    omega

/-- Witness for C1: poll interval 10, timeout 30, a stub that never
reports done: the loop times out. -/
theorem wait_never_completes_times_out_witness :
    ∃ out, waitLoop neverDoneFetch 10 30 (by omega) 0 0 = WaitResult.timedOut out ∧
      out.status = "timeout" ∧ out.done = false ∧ 30 ≤ out.elapsed_seconds ∧
      ceilDiv 30 10 - 1 ≤ out.poll_count ∧ out.poll_count ≤ ceilDiv 30 10 + 1 :=
  wait_never_completes_times_out 10 30 (by omega) (by omega) (by omega) (by omega)
    (by omega) neverDoneFetch (fun _ => ⟨neverDoneSnap, rfl, rfl, rfl⟩)

/-- Claim C2: if fetches 1 to k-1 are non-terminal and the k-th fetch
reports done = true (no error) with k * p < t, the wait call returns the
completed outcome with poll count exactly k. -/
theorem wait_completes_on_kth_fetch
    (p t k : Nat) (hp5 : 5 ≤ p) (hp60 : p ≤ 60) (ht30 : 30 ≤ t) (ht600 : t ≤ 600)
    (hk : 1 ≤ k) (hkpt : k * p < t)
    (fetch : Nat → Except ApiError OperationResponse)
    (hf : ∀ i, 1 ≤ i → i < k → ∃ op, fetch i = Except.ok op ∧ nonTerminalSnap op)
    (opk : OperationResponse) (hfk : fetch k = Except.ok opk)
    (hdone : opk.done = some true) (herr : opk.error = none) :
    waitLoop fetch p t (by omega) 0 0 =
      WaitResult.finished (waitFinishedOutput opk ((k - 1) * (p * 1000)) k) ∧
    (waitFinishedOutput opk ((k - 1) * (p * 1000)) k).poll_count = k ∧
    (waitFinishedOutput opk ((k - 1) * (p * 1000)) k).status = "completed" ∧
    (waitFinishedOutput opk ((k - 1) * (p * 1000)) k).elapsed_seconds = (k - 1) * p := by
  have hreach := waitLoop_reach fetch p t (by omega) (k - 1) 0 0
    (fun i h1 h2 => hf i (by omega) (by omega))
    (by intro j hj
        have h1 : j * p < t := by
          have h2 : j * p ≤ k * p := Nat.mul_le_mul_right p (by omega)
          omega
        have h3 : j * (p * 1000) = (j * p) * 1000 := by ring
        omega)
  simp only [Nat.zero_add] at hreach
  have h0 : k - 1 + 1 = k := by omega
  refine ⟨?_, rfl, ?_, ?_⟩
  · rw [hreach, waitLoop, h0, hfk]
    simp [hdone]
  · show (if opk.error.isSome then "failed" else "completed") = "completed"
    simp [herr]
  · show msToRoundedSeconds ((k - 1) * (p * 1000)) = (k - 1) * p
    have h1 : (k - 1) * (p * 1000) = ((k - 1) * p) * 1000 := by ring
    rw [h1, msToRoundedSeconds_mul]

def completesAtThree : Nat → Except ApiError OperationResponse :=
  fun kk => if kk < 3 then Except.ok neverDoneSnap else Except.ok oneSampleSnap

/-- Witness for C2: poll interval 5, timeout 30, a stub that completes on
its third fetch: poll count is exactly 3. -/
theorem wait_completes_on_kth_fetch_witness :
    waitLoop completesAtThree 5 30 (by omega) 0 0 =
      WaitResult.finished (waitFinishedOutput oneSampleSnap ((3 - 1) * (5 * 1000)) 3) ∧
    (waitFinishedOutput oneSampleSnap ((3 - 1) * (5 * 1000)) 3).poll_count = 3 ∧
    (waitFinishedOutput oneSampleSnap ((3 - 1) * (5 * 1000)) 3).status = "completed" ∧
    (waitFinishedOutput oneSampleSnap ((3 - 1) * (5 * 1000)) 3).elapsed_seconds
      = (3 - 1) * 5 :=
  wait_completes_on_kth_fetch 5 30 3 (by omega) (by omega) (by omega) (by omega)
    (by omega) (by omega) completesAtThree
    (fun i h1 h2 => ⟨neverDoneSnap, by simp [completesAtThree, h2], rfl, rfl⟩)
    oneSampleSnap rfl rfl rfl

/-- Claim C7: if the k-th status fetch of a wait call throws a transport
error (and the loop reaches it), the call returns the structured failure
text produced by handleApiError — a returned outcome, not a crash — and
the result does not depend on any fetch after the k-th: there is no
retry and no further polling. -/
theorem wait_fetch_error_fails_fast
    (p t k : Nat) (hp5 : 5 ≤ p) (hp60 : p ≤ 60) (ht30 : 30 ≤ t) (ht600 : t ≤ 600)
    (hk : 1 ≤ k) (hkpt : k * p < t)
    (fetch : Nat → Except ApiError OperationResponse)
    (hf : ∀ i, 1 ≤ i → i < k → ∃ op, fetch i = Except.ok op ∧ nonTerminalSnap op)
    (err : ApiError) (hfk : fetch k = Except.error err) :
    waitLoop fetch p t (by omega) 0 0 = WaitResult.fetchFailed (handleApiError err) ∧
    ∀ fetch2, (∀ i, i ≤ k → fetch2 i = fetch i) →
      waitLoop fetch2 p t (by omega) 0 0 = WaitResult.fetchFailed (handleApiError err) := by
  have main : ∀ g : Nat → Except ApiError OperationResponse,
      (∀ i, i ≤ k → g i = fetch i) →
      waitLoop g p t (by omega : 0 < p) 0 0 = WaitResult.fetchFailed (handleApiError err) := by
    intro g hg
    have hreach := waitLoop_reach g p t (by omega) (k - 1) 0 0
      (fun i h1 h2 => by
        rw [hg i (by omega)]
        exact hf i (by omega) (by omega))
      (by intro j hj
          have h1 : j * p < t := by
            have h2 : j * p ≤ k * p := Nat.mul_le_mul_right p (by omega)
            omega
          have h3 : j * (p * 1000) = (j * p) * 1000 := by ring
          omega)
    simp only [Nat.zero_add] at hreach
    have h0 : k - 1 + 1 = k := by omega
    have hgk : g k = Except.error err := by rw [hg k le_rfl, hfk]
    rw [hreach, waitLoop, h0, hgk]
  exact ⟨main fetch (fun _ _ => rfl), main⟩

def errorAtOneFetch : Nat → Except ApiError OperationResponse :=
  fun _ => Except.error (ApiError.http 500 "backend unavailable")

/-- Witness for C7: the first fetch throws an HTTP 500; the wait call
returns the mapped error text. -/
theorem wait_fetch_error_fails_fast_witness :
    waitLoop errorAtOneFetch 10 30 (by omega) 0 0 =
      WaitResult.fetchFailed (handleApiError (ApiError.http 500 "backend unavailable")) :=
  (wait_fetch_error_fails_fast 10 30 1 (by omega) (by omega) (by omega) (by omega)
    (by omega) (by omega) errorAtOneFetch
    (fun i h1 h2 => absurd h2 (by omega))
    (ApiError.http 500 "backend unavailable") rfl).1

-- Helper for C10: by induction on the loop, any result produced through
-- the terminal branch has its done field set to true.
theorem waitLoop_finished_done (fetch : Nat → Except ApiError OperationResponse)
    (p t : Nat) (hp : 0 < p) :
    ∀ m pc e out, t * 1000 - e = m →
      waitLoop fetch p t hp pc e = WaitResult.finished out → out.done = true := by
  intro m
  induction m using Nat.strong_induction_on with
  | _ m ih =>
    intro pc e out hm h
    rw [waitLoop] at h
    split at h
    · exact absurd h (by simp)
    · split at h
      · cases h
        rfl
      · split at h
        · exact absurd h (by simp)
        · rename_i htime
          exact ih (t * 1000 - (e + p * 1000)) (by omega) (pc + 1) (e + p * 1000) out rfl h

/-- Claim C10: every wait call that exits through the loop's terminal
branch reports done = true in its structured output, regardless of the
snapshot's own done field (which may be absent when the loop exited on an
error). -/
theorem wait_finished_reports_done_true
    (fetch : Nat → Except ApiError OperationResponse) (p t : Nat) (hp : 0 < p)
    (pc e : Nat) (out : WaitFinishedOutput)
    (h : waitLoop fetch p t hp pc e = WaitResult.finished out) :
    out.done = true :=
  waitLoop_finished_done fetch p t hp (t * 1000 - e) pc e out rfl h

def errorNoDoneSnap : OperationResponse :=
  { name := "operations/abc123"
    done := none
    error := some { code := 13, message := "internal" }
    response := none }

def alwaysErrorSnapFetch : Nat → Except ApiError OperationResponse :=
  fun _ => Except.ok errorNoDoneSnap

/-- Witness for C10: the loop exits on a snapshot that carries an error
but no done flag; the structured output still reports done = true. -/
theorem wait_finished_reports_done_true_witness :
    (waitFinishedOutput errorNoDoneSnap 0 1).done = true ∧
    errorNoDoneSnap.done ≠ some true :=
  ⟨wait_finished_reports_done_true alwaysErrorSnapFetch 10 300 (by omega) 0 0
      (waitFinishedOutput errorNoDoneSnap 0 1)
      (by rw [waitLoop]; rfl),
   by decide⟩

/-- The observable timing events of one wait call, under the idealized
clock: the k-th status fetch starting at a given millisecond offset, and
each suspension (`await setTimeout(pollIntervalMs)`) with its start
offset and duration. -/
inductive PollEvent where
  | fetchAt (k timeMs : Nat)
  | sleepAt (timeMs durMs : Nat)
deriving DecidableEq

/-- The event trace of the polling loop (lines 716-761): it mirrors
waitLoop step for step, recording each fetch and each sleep.  The sleep
is emitted only in the branch where the deadline check (performed before
the sleep, line 725) has not fired. -/
def waitLoopEvents (fetch : Nat → Except ApiError OperationResponse)
    (pSec tSec : Nat) (hp : 0 < pSec) (pollCount elapsedMs : Nat) : List PollEvent :=
  match fetch (pollCount + 1) with
  | .error _ => [PollEvent.fetchAt (pollCount + 1) elapsedMs]
  | .ok op =>
    if op.done.getD false || op.error.isSome then
      [PollEvent.fetchAt (pollCount + 1) elapsedMs]
    else if tSec * 1000 ≤ elapsedMs then
      [PollEvent.fetchAt (pollCount + 1) elapsedMs]
    else
      PollEvent.fetchAt (pollCount + 1) elapsedMs ::
        PollEvent.sleepAt elapsedMs (pSec * 1000) ::
        waitLoopEvents fetch pSec tSec hp (pollCount + 1) (elapsedMs + pSec * 1000)
termination_by tSec * 1000 - elapsedMs
decreasing_by omega

-- Shape invariant of the event trace: the k-th fetch starts exactly
-- (k - pc - 1) poll intervals after the entry time, and every sleep has
-- the configured duration and starts strictly before the deadline.
theorem waitLoopEvents_shape (fetch : Nat → Except ApiError OperationResponse)
    (pSec tSec : Nat) (hp : 0 < pSec) :
    ∀ m pc e, tSec * 1000 - e = m →
    ∀ ev, ev ∈ waitLoopEvents fetch pSec tSec hp pc e →
      (∀ k τ, ev = PollEvent.fetchAt k τ →
        pc < k ∧ τ = e + (k - pc - 1) * (pSec * 1000)) ∧
      (∀ τ d, ev = PollEvent.sleepAt τ d → d = pSec * 1000 ∧ τ < tSec * 1000) := by
  intro m
  induction m using Nat.strong_induction_on with
  | _ m ih =>
    intro pc e hm ev hev
    rw [waitLoopEvents] at hev
    split at hev
    · simp at hev
      constructor
      · intro k τ hk
        rw [hev] at hk
        injection hk with h1 h2
        subst h1
        subst h2
        have hz : pc + 1 - pc - 1 = 0 := by omega
        refine ⟨by omega, ?_⟩
        rw [hz]
        simp
      · intro τ d hk
        rw [hev] at hk
        exact absurd hk (by simp)
    · split at hev
      · simp at hev
        constructor
        · intro k τ hk
          rw [hev] at hk
          injection hk with h1 h2
          subst h1
          subst h2
          have hz : pc + 1 - pc - 1 = 0 := by omega
          refine ⟨by omega, ?_⟩
          rw [hz]
          simp
        · intro τ d hk
          rw [hev] at hk
          exact absurd hk (by simp)
      · split at hev
        · simp at hev
          constructor
          · intro k τ hk
            rw [hev] at hk
            injection hk with h1 h2
            subst h1
            subst h2
            have hz : pc + 1 - pc - 1 = 0 := by omega
            refine ⟨by omega, ?_⟩
            rw [hz]
            simp
          · intro τ d hk
            rw [hev] at hk
            exact absurd hk (by simp)
        · rename_i htime
          rcases List.mem_cons.mp hev with h1 | hev2
          · constructor
            · intro k τ hk
              rw [h1] at hk
              injection hk with ha hb
              subst ha
              subst hb
              have hz : pc + 1 - pc - 1 = 0 := by omega
              refine ⟨by omega, ?_⟩
              rw [hz]
              simp
            · intro τ d hk
              rw [h1] at hk
              exact absurd hk (by simp)
          · rcases List.mem_cons.mp hev2 with h2 | hev3
            · constructor
              · intro k τ hk
                rw [h2] at hk
                exact absurd hk (by simp)
              · intro τ d hk
                rw [h2] at hk
                injection hk with ha hb
                constructor
                · omega
                · omega
            · have hrec := ih (tSec * 1000 - (e + pSec * 1000)) (by omega)
                (pc + 1) (e + pSec * 1000) rfl ev hev3
              constructor
              · intro k τ hk
                obtain ⟨hk1, hk2⟩ := hrec.1 k τ hk
                constructor
                · omega
                · have harith : e + pSec * 1000 + (k - (pc + 1) - 1) * (pSec * 1000) =
                      e + ((k - (pc + 1) - 1) + 1) * (pSec * 1000) := by ring
                  have hidx : (k - (pc + 1) - 1) + 1 = k - pc - 1 := by omega
                  rw [hk2, harith, hidx]
              · intro τ d hk
                exact hrec.2 τ d hk

/-- Claim C9: within one wait call the status fetches are strictly
sequential — the k-th fetch starts exactly (k-1) poll intervals into the
call, so any later fetch starts at least one full poll interval after any
earlier one — and, because the deadline check precedes the sleep, every
sleep has the configured duration and starts strictly before the
timeout deadline. -/
theorem wait_poll_spacing_and_deadline
    (fetch : Nat → Except ApiError OperationResponse) (p t : Nat) (hp : 0 < p) :
    (∀ k τ, PollEvent.fetchAt k τ ∈ waitLoopEvents fetch p t hp 0 0 →
      1 ≤ k ∧ τ = (k - 1) * (p * 1000)) ∧
    (∀ k τ k2 τ2, PollEvent.fetchAt k τ ∈ waitLoopEvents fetch p t hp 0 0 →
      PollEvent.fetchAt k2 τ2 ∈ waitLoopEvents fetch p t hp 0 0 → k < k2 →
      τ + p * 1000 ≤ τ2) ∧
    (∀ τ d, PollEvent.sleepAt τ d ∈ waitLoopEvents fetch p t hp 0 0 →
      d = p * 1000 ∧ τ < t * 1000) := by
  have hshape := waitLoopEvents_shape fetch p t hp (t * 1000 - 0) 0 0 rfl
  have hfetch : ∀ k τ, PollEvent.fetchAt k τ ∈ waitLoopEvents fetch p t hp 0 0 →
      1 ≤ k ∧ τ = (k - 1) * (p * 1000) := by
    intro k τ hmem
    obtain ⟨h1, h2⟩ := (hshape _ hmem).1 k τ rfl
    refine ⟨by omega, ?_⟩
    rw [h2]
    have : k - 0 - 1 = k - 1 := by omega
    rw [this]
    omega
  refine ⟨hfetch, ?_, ?_⟩
  · intro k τ k2 τ2 hm1 hm2 hlt
    obtain ⟨hk1, ht1⟩ := hfetch k τ hm1
    obtain ⟨hk2, ht2⟩ := hfetch k2 τ2 hm2
    rw [ht1, ht2]
    have hmul : (k - 1) * (p * 1000) + 1 * (p * 1000) ≤ (k2 - 1) * (p * 1000) := by
      have hstep : (k - 1) + 1 ≤ k2 - 1 ∨ (k - 1) + 1 = k2 - 1 + 0 ∨ k ≤ k2 - 1 := by omega
      have hle : k ≤ k2 - 1 := by omega
      have h3 : (k - 1) * (p * 1000) + 1 * (p * 1000) = ((k - 1) + 1) * (p * 1000) := by ring
      rw [h3]
      exact Nat.mul_le_mul_right _ (by omega)
    omega
  · intro τ d hmem
    exact (hshape _ hmem).2 τ d rfl

/-- Witness for C9: with poll interval 10 and timeout 30 against a stub
that never completes, the second fetch starts one full interval after the
first, and the last sleep starts strictly before the deadline. -/
theorem wait_poll_spacing_and_deadline_witness :
    ((0 : Nat) + 10 * 1000 ≤ 10000) ∧
    ((10000 : Nat) = 10 * 1000 ∧ (20000 : Nat) < 30 * 1000) := by
  have hev : waitLoopEvents neverDoneFetch 10 30 (by omega) 0 0 =
      [PollEvent.fetchAt 1 0, PollEvent.sleepAt 0 10000,
       PollEvent.fetchAt 2 10000, PollEvent.sleepAt 10000 10000,
       PollEvent.fetchAt 3 20000, PollEvent.sleepAt 20000 10000,
       PollEvent.fetchAt 4 30000] := by
    simp [waitLoopEvents, neverDoneFetch, neverDoneSnap]
  have hthm := wait_poll_spacing_and_deadline neverDoneFetch 10 30 (by omega)
  constructor
  · exact hthm.2.1 1 0 2 10000 (by rw [hev]; simp) (by rw [hev]; simp) (by omega)
  · exact hthm.2.2 20000 10000 (by rw [hev]; simp)

/-- The raw arguments of a veo_wait_for_video call before schema
validation: JavaScript numbers are modelled as rationals so that the
`.int()` refinement is observable (response_format plays no role in the
claims and is omitted). -/
structure RawWaitInput where
  operation_name : String
  poll_interval_seconds : Rat
  timeout_seconds : Rat
deriving DecidableEq

/-- `WaitForVideoInputSchema` (lines 347-366): operation_name is a
non-empty string, poll_interval_seconds an integer in [5, 60],
timeout_seconds an integer in [30, 600]. -/
def validWaitInput (inp : RawWaitInput) : Bool :=
  decide (1 ≤ inp.operation_name.length) &&
  (inp.poll_interval_seconds.isInt &&
    decide ((5 : Rat) ≤ inp.poll_interval_seconds) &&
    decide (inp.poll_interval_seconds ≤ (60 : Rat))) &&
  (inp.timeout_seconds.isInt &&
    decide ((30 : Rat) ≤ inp.timeout_seconds) &&
    decide (inp.timeout_seconds ≤ (600 : Rat)))

theorem validWaitInput_poll_pos (inp : RawWaitInput)
    (h : validWaitInput inp = true) : 0 < inp.poll_interval_seconds.num.toNat := by
  unfold validWaitInput at h
  simp only [Bool.and_eq_true, decide_eq_true_eq] at h
  have h5 : (5 : Rat) ≤ inp.poll_interval_seconds := h.1.2.1.2
  have hq : (0 : Rat) < inp.poll_interval_seconds := by linarith
  have hn : 0 < inp.poll_interval_seconds.num := Rat.num_pos.mpr hq
  omega

/-- The message surfaced when the zod schema rejects the call before the
handler body runs. -/
def waitValidationError : String :=
  "ValidationError: invalid arguments for veo_wait_for_video"

/-- The veo_wait_for_video tool (lines 674-787): validate the input
against the schema (rejected inputs never reach the handler body, hence
never fetch); on success, normalize the operation name and run the
polling loop with the interval and timeout converted to numbers of
seconds. -/
def veo_wait_for_video (fetch : String → Nat → Except ApiError OperationResponse)
    (inp : RawWaitInput) : Except String WaitResult :=
  if h : validWaitInput inp = true then
    Except.ok (waitLoop (fetch (waitOperationPath inp.operation_name))
      inp.poll_interval_seconds.num.toNat inp.timeout_seconds.num.toNat
      (validWaitInput_poll_pos inp h) 0 0)
  else
    Except.error waitValidationError

/-- Claim C8 (amended): a wait input whose poll interval is not an integer
in [5, 60] or whose timeout is not an integer in [30, 600] is rejected
with a validation error, identically for every fetch stub (so before any
remote call); an input within those bounds whose operation_name is
non-empty passes validation and reaches the polling loop. -/
theorem wait_input_validation_bounds (inp : RawWaitInput) :
    ((inp.poll_interval_seconds.isInt = false ∨
      inp.poll_interval_seconds < (5 : Rat) ∨ (60 : Rat) < inp.poll_interval_seconds ∨
      inp.timeout_seconds.isInt = false ∨
      inp.timeout_seconds < (30 : Rat) ∨ (600 : Rat) < inp.timeout_seconds) →
      ∀ fetch, veo_wait_for_video fetch inp = Except.error waitValidationError) ∧
    ((inp.poll_interval_seconds.isInt = true ∧
      (5 : Rat) ≤ inp.poll_interval_seconds ∧ inp.poll_interval_seconds ≤ (60 : Rat) ∧
      inp.timeout_seconds.isInt = true ∧
      (30 : Rat) ≤ inp.timeout_seconds ∧ inp.timeout_seconds ≤ (600 : Rat) ∧
      1 ≤ inp.operation_name.length) →
      ∀ fetch, ∃ r, veo_wait_for_video fetch inp = Except.ok r) := by
  constructor
  · intro hbad fetch
    have hv : ¬ validWaitInput inp = true := by
      intro htrue
      unfold validWaitInput at htrue
      simp only [Bool.and_eq_true, decide_eq_true_eq] at htrue
      obtain ⟨⟨hlen, ⟨hpi, hp5⟩, hp60⟩, ⟨hti, ht30⟩, ht600⟩ := htrue
      rcases hbad with h | h | h | h | h | h
      · rw [hpi] at h; cases h
      · linarith
      · linarith
      · rw [hti] at h; cases h
      · linarith
      · linarith
    unfold veo_wait_for_video
    rw [dif_neg hv]
  · intro hgood fetch
    obtain ⟨hpi, hp5, hp60, hti, ht30, ht600, hlen⟩ := hgood
    have hv : validWaitInput inp = true := by
      unfold validWaitInput
      simp only [Bool.and_eq_true, decide_eq_true_eq]
      exact ⟨⟨hlen, ⟨hpi, hp5⟩, hp60⟩, ⟨hti, ht30⟩, ht600⟩
    unfold veo_wait_for_video
    rw [dif_pos hv]
    exact ⟨_, rfl⟩

def emptyNameWaitInput : RawWaitInput :=
  { operation_name := ""
    poll_interval_seconds := 10
    timeout_seconds := 300 }

/-- Counterexample for C8 as stated: the input with both numeric fields
inside their bounds but an empty operation_name is rejected by the
schema, so in-bounds numeric fields alone do not guarantee that the call
reaches the poller. -/
theorem wait_validation_rejects_inbounds_empty_name :
    ((10 : Rat).isInt = true ∧ (5 : Rat) ≤ (10 : Rat) ∧ (10 : Rat) ≤ (60 : Rat) ∧
     (300 : Rat).isInt = true ∧ (30 : Rat) ≤ (300 : Rat) ∧ (300 : Rat) ≤ (600 : Rat)) ∧
    veo_wait_for_video (fun _ _ => Except.error ApiError.connAborted) emptyNameWaitInput =
      Except.error waitValidationError := by
  constructor
  · refine ⟨by decide, by norm_num, by norm_num, by decide, by norm_num, by norm_num⟩
  · rfl

def goodWaitInput : RawWaitInput :=
  { operation_name := "operations/abc123"
    poll_interval_seconds := 10
    timeout_seconds := 300 }

/-- Witness for C8: a fully in-bounds input with a non-empty name passes
validation and the call reaches the polling loop. -/
theorem wait_input_validation_bounds_witness :
    ∃ r, veo_wait_for_video (fun _ _ => Except.ok doneNoArtifactsSnap) goodWaitInput =
      Except.ok r :=
  (wait_input_validation_bounds goodWaitInput).2
    ⟨by decide, by norm_num [goodWaitInput], by norm_num [goodWaitInput],
     by decide, by norm_num [goodWaitInput], by norm_num [goodWaitInput], by decide⟩
    (fun _ _ => Except.ok doneNoArtifactsSnap)
